import Mathlib

/-!
Verification of the gesture-driven particle system
(hand-controlled-3d-particles).

The development shallowly embeds the frame-level logic of
`src/components/ParticleScene.tsx` (particle integrator and the two-hand
gesture state machine), the pinch normalization of
`src/components/WebcamHandler.tsx`, the shape generators of
`src/utils/shapes.ts`, and the buffer (re)initialization performed by the
React memo cells of the particle component.  JavaScript numbers are
idealized as rationals (`ℚ`) except where the special values NaN and
Infinity matter, where an explicit `JsNum` type is used, and where the
shape generators use transcendental functions, where `ℝ` is used.
-/

namespace HandParticles

/-! ## Particle integrator (ParticleScene.tsx, lines 137-174)

Per axis, per particle and per frame the source does

  vx += (tx - cx) * RETURN_SPEED;          -- spring toward target
  vx += (Math.random() - 0.5) * noise;     -- turbulence, noise = 0.01
  vx *= (1 - DAMPING);                     -- damping, DAMPING = 0.1
  currentPositions[idx] += vx;

with `RETURN_SPEED = 0.05`.  The random draw `r` (a `Math.random()`
result, uniform in `[0,1)`) is made an explicit input.
-/

/-- `RETURN_SPEED = 0.05` (ParticleScene.tsx line 33). -/
def returnSpeed : ℚ := 5 / 100

/-- `DAMPING = 0.1` (ParticleScene.tsx line 32). -/
def damping : ℚ := 1 / 10

/-- `noise = 0.01`, the turbulence amplitude (ParticleScene.tsx line 158). -/
def noiseAmp : ℚ := 1 / 100

/-- One particle's scalar state on one axis: current position and
velocity (entries of `currentPositions` and `velocities`). -/
structure PState where
  pos : ℚ
  vel : ℚ
  deriving Repr, DecidableEq

/-- One frame of the per-axis particle update of ParticleScene.tsx lines
152-174: spring force toward the target `t`, turbulence from the uniform
draw `r`, damping, then Euler integration. -/
def particleStep (t r : ℚ) (s : PState) : PState :=
  let v1 := s.vel + (t - s.pos) * returnSpeed
  let v2 := v1 + (r - 1/2) * noiseAmp
  let v3 := v2 * (1 - damping)
  { pos := s.pos + v3, vel := v3 }

/-- The update described by the specification for idle frames: spring
force followed by damping and integration, with no random perturbation.
It coincides with `particleStep` exactly when the draw is `1/2`. -/
def springDampStep (t : ℚ) (s : PState) : PState :=
  let v := (s.vel + (t - s.pos) * returnSpeed) * (1 - damping)
  { pos := s.pos + v, vel := v }

/-- `n`-fold iteration of the noise-free idle update with target `t`. -/
def idleIter (t : ℚ) : ℕ → PState → PState
  | 0, s => s
  | n + 1, s => idleIter t n (springDampStep t s)

/-- Quadratic Lyapunov form for the idle update: positive definite in
(position error, velocity) and contracted by exactly 9/10 per frame. -/
def lyapV (t : ℚ) (s : PState) : ℚ :=
  18 * (s.pos - t) ^ 2 + 22 * (s.pos - t) * s.vel + 360 * s.vel ^ 2

theorem lyapV_step (t : ℚ) (s : PState) :
    lyapV t (springDampStep t s) = 9 / 10 * lyapV t s := by
  simp only [lyapV, springDampStep, returnSpeed, damping]
  ring

theorem lyapV_nonneg (t : ℚ) (s : PState) : 0 ≤ lyapV t s := by
  have h := sq_nonneg (11 * (s.pos - t) + 360 * s.vel)
  have h2 := sq_nonneg (s.pos - t)
  simp only [lyapV]
  nlinarith

theorem lyapV_pos_bound (t : ℚ) (s : PState) :
    6359 * (s.pos - t) ^ 2 ≤ 360 * lyapV t s := by
  have h := sq_nonneg (11 * (s.pos - t) + 360 * s.vel)
  simp only [lyapV]
  nlinarith

theorem lyapV_vel_bound (t : ℚ) (s : PState) :
    6359 * s.vel ^ 2 ≤ 18 * lyapV t s := by
  have h := sq_nonneg (18 * (s.pos - t) + 11 * s.vel)
  simp only [lyapV]
  nlinarith

theorem lyapV_iter (t : ℚ) (n : ℕ) (s : PState) :
    lyapV t (idleIter t n s) * 10 ^ n = 9 ^ n * lyapV t s := by
  induction n generalizing s with
  | zero => simp [idleIter]
  | succ n ih =>
    have h := ih (springDampStep t s)
    calc lyapV t (idleIter t (n + 1) s) * 10 ^ (n + 1)
        = lyapV t (idleIter t n (springDampStep t s)) * 10 ^ n * 10 := by
          simp [idleIter]; ring
      _ = 9 ^ n * lyapV t (springDampStep t s) * 10 := by rw [h]
      _ = 9 ^ n * (9 / 10 * lyapV t s) * 10 := by rw [lyapV_step]
      _ = 9 ^ (n + 1) * lyapV t s := by ring

theorem lyapV_iter_le (t : ℚ) (n : ℕ) (s : PState) :
    lyapV t (idleIter t n s) ≤ lyapV t s := by
  have h := lyapV_iter t n s
  have h9 : (9 : ℚ) ^ n ≤ 10 ^ n := by
    apply pow_le_pow_left₀ (by norm_num) (by norm_num)
  have h10 : (0 : ℚ) < 10 ^ n := by positivity
  have hV := lyapV_nonneg t s
  nlinarith [lyapV_nonneg t (idleIter t n s)]

/-- Scaling: around target `t`, the idle dynamics are linear in the
displacement, so a displacement scaled by `d` evolves as `d` times the
unit trajectory around target `0`. -/
theorem idleIter_scale (t d : ℚ) (n : ℕ) (p v : ℚ) :
    idleIter t n { pos := t + d * p, vel := d * v } =
      { pos := t + d * (idleIter 0 n { pos := p, vel := v }).pos,
        vel := d * (idleIter 0 n { pos := p, vel := v }).vel } := by
  induction n generalizing p v with
  | zero => simp [idleIter]
  | succ n ih =>
    have hstep : springDampStep t { pos := t + d * p, vel := d * v } =
        { pos := t + d * (springDampStep 0 { pos := p, vel := v }).pos,
          vel := d * (springDampStep 0 { pos := p, vel := v }).vel } := by
      simp only [springDampStep, returnSpeed, damping, PState.mk.injEq]
      constructor <;> ring
    simp only [idleIter, hstep]
    rw [ih]

/-- The code's per-frame update with the neutral draw `1/2` adds no
perturbation and is exactly the spring-plus-damping update. -/
theorem particleStep_half (t : ℚ) (s : PState) :
    particleStep t (1/2) s = springDampStep t s := by
  simp only [particleStep, springDampStep, PState.mk.injEq]
  constructor <;> ring

theorem idleIter_succ (t : ℚ) (n : ℕ) (s : PState) :
    idleIter t (n + 1) s = springDampStep t (idleIter t n s) := by
  induction n generalizing s with
  | zero => simp [idleIter]
  | succ n ih =>
    show idleIter t (n + 1) (springDampStep t s) = _
    rw [ih]
    rfl

/-- Exact integer scaling of the unit idle trajectory: the state after
`n` idle frames, started from unit displacement and zero velocity around
target `0`, is `(intCoef n).1 / 200 ^ n` (position) and
`(intCoef n).2 / 200 ^ n` (velocity). -/
def intCoef : ℕ → ℤ × ℤ
  | 0 => (1, 0)
  | n + 1 =>
    let p := intCoef n
    (191 * p.1 + 180 * p.2, 180 * p.2 - 9 * p.1)

theorem intCoef_spec (n : ℕ) :
    ((intCoef n).1 : ℚ) = (idleIter 0 n { pos := 1, vel := 0 }).pos * 200 ^ n ∧
    ((intCoef n).2 : ℚ) = (idleIter 0 n { pos := 1, vel := 0 }).vel * 200 ^ n := by
  induction n with
  | zero => simp [intCoef, idleIter]
  | succ n ih =>
    obtain ⟨h1, h2⟩ := ih
    rw [idleIter_succ]
    simp only [intCoef, springDampStep, returnSpeed, damping]
    push_cast
    rw [h1, h2]
    constructor <;> ring

set_option maxRecDepth 8000 in
/-- Concrete comparison of the unit idle trajectory: the squared
position error after 120 frames is below the squared error after 10
frames. -/
theorem unit_err_120_lt_10 :
    ((idleIter 0 120 { pos := 1, vel := 0 }).pos) ^ 2 <
      ((idleIter 0 10 { pos := 1, vel := 0 }).pos) ^ 2 := by
  have h120 := (intCoef_spec 120).1
  have h10 := (intCoef_spec 10).1
  have hz : (intCoef 120).1 * (intCoef 120).1 * 200 ^ 20 <
      (intCoef 10).1 * (intCoef 10).1 * 200 ^ 240 := by decide
  have hq : ((intCoef 120).1 : ℚ) ^ 2 * 200 ^ 20 <
      ((intCoef 10).1 : ℚ) ^ 2 * 200 ^ 240 := by
    rw [pow_two, pow_two]
    exact_mod_cast hz
  rw [h120, h10] at hq
  nlinarith [hq]

/-- Total squared position error of a buffer of particles after `n`
idle frames toward target `t`; each entry `d` of `ds` is one flat-array
coordinate's initial displacement from its target (velocity starts at
zero, as the source initializes `velocities` to a zero array). -/
def sqErrSum (t : ℚ) (n : ℕ) (ds : List ℚ) : ℚ :=
  (ds.map (fun d => ((idleIter t n { pos := t + d, vel := 0 }).pos - t) ^ 2)).sum

theorem sqErrSum_eq (t : ℚ) (n : ℕ) (ds : List ℚ) :
    sqErrSum t n ds =
      ((idleIter 0 n { pos := 1, vel := 0 }).pos) ^ 2 *
        (ds.map (fun d => d ^ 2)).sum := by
  induction ds with
  | nil => simp [sqErrSum]
  | cons d ds ih =>
    have hhead : (idleIter t n { pos := t + d, vel := 0 }).pos - t =
        d * (idleIter 0 n { pos := 1, vel := 0 }).pos := by
      have hscale := idleIter_scale t d n 1 0
      rw [mul_one, mul_zero] at hscale
      rw [hscale]
      dsimp only
      ring
    have hexp : sqErrSum t n (d :: ds) =
        ((idleIter t n { pos := t + d, vel := 0 }).pos - t) ^ 2 + sqErrSum t n ds := by
      simp [sqErrSum]
    rw [hexp, hhead, ih, List.map_cons, List.sum_cons]
    ring

theorem sum_sq_pos (ds : List ℚ) (h : ∃ d ∈ ds, d ≠ 0) :
    0 < (ds.map (fun d => d ^ 2)).sum := by
  obtain ⟨d, hd, hdne⟩ := h
  have hnn : ∀ x ∈ ds.map (fun d => d ^ 2), 0 ≤ x := by
    intro x hx
    obtain ⟨y, _, rfl⟩ := List.mem_map.mp hx
    positivity
  have hmem : d ^ 2 ∈ ds.map (fun d => d ^ 2) := List.mem_map_of_mem _ hd
  have hpos : 0 < d ^ 2 := by positivity
  calc (0 : ℚ) < d ^ 2 := hpos
    _ ≤ (ds.map (fun d => d ^ 2)).sum := List.single_le_sum hnn _ hmem

/-- C1: with no hands and a fixed target, iterating the per-particle
frame update (spring pull with returnSpeed 0.05, then damping by factor
1 - 0.1, then position += velocity) keeps every particle position and
velocity bounded for any number of frames (first two conjuncts: squared
displacement and squared velocity stay below fixed multiples of the
initial Lyapunov energy), the error decays geometrically toward zero
(third conjunct: the squared error scaled by (10/9)^n stays bounded),
and from any displaced position buffer (zero initial velocities, as the
source allocates them) the total squared particle-to-target error after
120 frames is smaller than after 10 frames -- hence so is the mean
distance, since every coordinate of every particle scales by the same
factor per frame. -/
theorem c1_idle_spring_converges :
    (∀ (t : ℚ) (s : PState) (n : ℕ),
        6359 * ((idleIter t n s).pos - t) ^ 2 ≤ 360 * lyapV t s ∧
        6359 * (idleIter t n s).vel ^ 2 ≤ 18 * lyapV t s) ∧
    (∀ (t : ℚ) (s : PState) (n : ℕ),
        6359 * 10 ^ n * ((idleIter t n s).pos - t) ^ 2 ≤
          360 * 9 ^ n * lyapV t s) ∧
    (∀ (t : ℚ) (ds : List ℚ), (∃ d ∈ ds, d ≠ 0) →
        sqErrSum t 120 ds < sqErrSum t 10 ds) := by
  refine ⟨fun t s n => ?_, fun t s n => ?_, fun t ds hds => ?_⟩
  · have hmono := lyapV_iter_le t n s
    have hp := lyapV_pos_bound t (idleIter t n s)
    have hv := lyapV_vel_bound t (idleIter t n s)
    constructor <;> nlinarith
  · have hiter := lyapV_iter t n s
    have hp := lyapV_pos_bound t (idleIter t n s)
    have h10 : (0 : ℚ) < 10 ^ n := by positivity
    nlinarith
  · rw [sqErrSum_eq, sqErrSum_eq]
    have hsum := sum_sq_pos ds hds
    have hkey := unit_err_120_lt_10
    nlinarith

/-- Witness for C1 at target 0 and the one-coordinate displaced buffer
containing displacement 1. -/
theorem c1_idle_spring_converges_witness :
    sqErrSum 0 120 [1] < sqErrSum 0 10 [1] :=
  c1_idle_spring_converges.2.2 0 [1] ⟨1, by simp⟩

/-- C7 counterexample: on a frame with no trigger of any kind (this
frame's update does not even look at the hands), the code still adds a
random perturbation.  For the particle at rest on its target (position
0, velocity 0, target 0) and the draw 1, the per-axis update of
ParticleScene.tsx lines 152-174 moves the particle, while the
perturbation-free spring-plus-damping update claimed by the spec leaves
it fixed. -/
theorem c7_turbulence_unconditional_cex :
    particleStep 0 1 { pos := 0, vel := 0 } ≠
      springDampStep 0 { pos := 0, vel := 0 } ∧
    particleStep 0 1 { pos := 0, vel := 0 } =
      { pos := 9/2000, vel := 9/2000 } ∧
    springDampStep 0 { pos := 0, vel := 0 } = { pos := 0, vel := 0 } := by
  refine ⟨?_, ?_, ?_⟩
  · intro h
    rw [PState.mk.injEq] at h
    · have hv := h
      simp only [particleStep, springDampStep, returnSpeed, damping, noiseAmp] at hv
      norm_num at hv
  · simp only [particleStep, returnSpeed, damping, noiseAmp, PState.mk.injEq]
    norm_num
  · simp only [springDampStep, returnSpeed, damping, PState.mk.injEq]
    norm_num

/-- C7 amended: the turbulence perturbation is added on every frame,
unconditionally (there is no closed-fist or any other trigger in the
code); for draw `r` it shifts the velocity by (r - 1/2) * 0.01 * 0.9
relative to the pure spring-plus-damping update, and it vanishes exactly
when the draw is 1/2. -/
theorem c7_turbulence_unconditional_amended :
    ∀ (t r : ℚ) (s : PState),
      (particleStep t r s).vel - (springDampStep t s).vel =
        (r - 1/2) * (9/1000) ∧
      (particleStep t r s).pos - (springDampStep t s).pos =
        (r - 1/2) * (9/1000) ∧
      (particleStep t r s = springDampStep t s ↔ r = 1/2) := by
  intro t r s
  have hvel : (particleStep t r s).vel - (springDampStep t s).vel =
      (r - 1/2) * (9/1000) := by
    simp only [particleStep, springDampStep, returnSpeed, damping, noiseAmp]
    ring
  have hpos : (particleStep t r s).pos - (springDampStep t s).pos =
      (r - 1/2) * (9/1000) := by
    simp only [particleStep, springDampStep, returnSpeed, damping, noiseAmp]
    ring
  refine ⟨hvel, hpos, ?_, ?_⟩
  · intro h
    rw [h] at hvel
    have : (r - 1/2) * (9/1000) = 0 := by rw [← hvel]; ring
    have h9 : (9 : ℚ)/1000 ≠ 0 := by norm_num
    have := mul_eq_zero.mp this
    rcases this with h0 | h0
    · linarith [sub_eq_zero.mp h0]
    · exact absurd h0 h9
  · intro h
    rw [h, particleStep_half]

/-! ## Two-hand gesture state machine (ParticleScene.tsx, lines 44-117)

The interaction state is the `transformState` ref of line 44; each frame
the `useFrame` body reads the current `HandMetrics[]` and updates it in
place.  `Math.hypot` is kept abstract as a parameter `hyp` standing for
the planar two-argument hypotenuse; none of the control flow depends on
its value, and the claims that do are quantified over it. -/

/-- Palm position, `{ x, y, z }` of types.ts. -/
structure Vec3 where
  x : ℚ
  y : ℚ
  z : ℚ
  deriving Repr, DecidableEq

/-- `HandMetrics` of types.ts (rationals idealize the JS floats). -/
structure HandMetrics where
  isOpen : Bool
  pinchDistance : ℚ
  palmPosition : Vec3
  presence : Bool
  deriving Repr, DecidableEq

/-- The `transformState` record of ParticleScene.tsx lines 44-50. -/
structure TransformState where
  scale : ℚ
  rotationY : ℚ
  prevDist : ℚ
  prevDepthDiff : ℚ
  isInteracting : Bool
  deriving Repr, DecidableEq

/-- Initial `transformState` value (ParticleScene.tsx lines 44-50). -/
def initTransformState : TransformState :=
  { scale := 1
    rotationY := 0
    prevDist := 0
    prevDepthDiff := 0
    isInteracting := false }

/-- Line 68-70: `hands.length === 2 && hands[0].pinchDistance < 0.4 &&
hands[1].pinchDistance < 0.4`. -/
def isDoublePinch (hands : List HandMetrics) : Bool :=
  match hands with
  | [h0, h1] =>
    decide (h0.pinchDistance < 2/5) && decide (h1.pinchDistance < 2/5)
  | _ => false

/-- Line 75: `[...hands].sort((a, b) => a.palmPosition.x -
b.palmPosition.x)`.  The ECMAScript sort is stable and, on the
two-element arrays this code path produces, swaps the elements exactly
when the comparator is positive, i.e. when the first hand's x exceeds
the second's; on ties it preserves detector order. -/
def sortHandsByX (hands : List HandMetrics) : List HandMetrics :=
  match hands with
  | [a, b] => if b.palmPosition.x < a.palmPosition.x then [b, a] else [a, b]
  | l => l

/-- One frame of the gesture logic, ParticleScene.tsx lines 62-117.
`hyp dx dy` stands for `Math.hypot(dx, dy)` (line 81). -/
def gestureStep (hyp : ℚ → ℚ → ℚ) (hands : List HandMetrics)
    (ts : TransformState) : TransformState :=
  if isDoublePinch hands then
    match sortHandsByX hands with
    | [leftHand, rightHand] =>
      let dist := hyp (leftHand.palmPosition.x - rightHand.palmPosition.x)
        (leftHand.palmPosition.y - rightHand.palmPosition.y)
      let depthDiff := rightHand.palmPosition.z - leftHand.palmPosition.z
      if !ts.isInteracting then
        { ts with
          prevDist := dist
          prevDepthDiff := depthDiff
          isInteracting := true }
      else
        let deltaDist := dist - ts.prevDist
        let scale1 := ts.scale + deltaDist * 2
        let scale2 := max (1/5) (min scale1 3)
        let deltaDepth := depthDiff - ts.prevDepthDiff
        { scale := scale2
          rotationY := ts.rotationY - deltaDepth * (3/2)
          prevDist := dist
          prevDepthDiff := depthDiff
          isInteracting := true }
    | _ => ts
  else
    { ts with isInteracting := false }

/-- A session: fold the per-frame gesture update over a sequence of
per-frame hand readings, starting from the initial state. -/
def runGesture (hyp : ℚ → ℚ → ℚ) (frames : List (List HandMetrics)) :
    TransformState :=
  frames.foldl (fun ts hands => gestureStep hyp hands ts) initTransformState

theorem isDoublePinch_iff (hands : List HandMetrics) :
    isDoublePinch hands = true ↔
      ∃ h0 h1, hands = [h0, h1] ∧
        h0.pinchDistance < 2/5 ∧ h1.pinchDistance < 2/5 := by
  constructor
  · intro h
    match hands with
    | [h0, h1] =>
      simp only [isDoublePinch, Bool.and_eq_true, decide_eq_true_eq] at h
      exact ⟨h0, h1, rfl, h.1, h.2⟩
    | [] => simp [isDoublePinch] at h
    | [_] => simp [isDoublePinch] at h
    | _ :: _ :: _ :: _ => simp [isDoublePinch] at h
  · rintro ⟨h0, h1, rfl, hp0, hp1⟩
    simp [isDoublePinch, hp0, hp1]

/-- Planar palm distance of a sorted two-hand list, as computed on
ParticleScene.tsx lines 81-84 (`Math.hypot` abstracted as `hyp`). -/
def pairDist (hyp : ℚ → ℚ → ℚ) : List HandMetrics → ℚ
  | [l, r] => hyp (l.palmPosition.x - r.palmPosition.x)
      (l.palmPosition.y - r.palmPosition.y)
  | _ => 0

/-- Depth difference `rightHand.palmPosition.z - leftHand.palmPosition.z`
of a sorted two-hand list (ParticleScene.tsx line 89). -/
def pairDepthDiff : List HandMetrics → ℚ
  | [l, r] => r.palmPosition.z - l.palmPosition.z
  | _ => 0

theorem gestureStep_no_pinch (hyp : ℚ → ℚ → ℚ) (hands : List HandMetrics)
    (ts : TransformState) (h : isDoublePinch hands = false) :
    gestureStep hyp hands ts = { ts with isInteracting := false } := by
  simp [gestureStep, h]

theorem gestureStep_transition (hyp : ℚ → ℚ → ℚ) (h0 h1 : HandMetrics)
    (ts : TransformState) (hdp : isDoublePinch [h0, h1] = true)
    (hni : ts.isInteracting = false) :
    gestureStep hyp [h0, h1] ts =
      { ts with
        prevDist := pairDist hyp (sortHandsByX [h0, h1])
        prevDepthDiff := pairDepthDiff (sortHandsByX [h0, h1])
        isInteracting := true } := by
  simp only [gestureStep, hdp, if_true, sortHandsByX]
  by_cases hx : h1.palmPosition.x < h0.palmPosition.x
  · simp [hx, hni, pairDist, pairDepthDiff, sortHandsByX]
  · simp [hx, hni, pairDist, pairDepthDiff, sortHandsByX]

theorem gestureStep_interacting (hyp : ℚ → ℚ → ℚ) (h0 h1 : HandMetrics)
    (ts : TransformState) (hdp : isDoublePinch [h0, h1] = true)
    (hi : ts.isInteracting = true) :
    gestureStep hyp [h0, h1] ts =
      { scale := max (1/5) (min (ts.scale +
          (pairDist hyp (sortHandsByX [h0, h1]) - ts.prevDist) * 2) 3)
        rotationY := ts.rotationY -
          (pairDepthDiff (sortHandsByX [h0, h1]) - ts.prevDepthDiff) * (3/2)
        prevDist := pairDist hyp (sortHandsByX [h0, h1])
        prevDepthDiff := pairDepthDiff (sortHandsByX [h0, h1])
        isInteracting := true } := by
  simp only [gestureStep, hdp, if_true, sortHandsByX]
  by_cases hx : h1.palmPosition.x < h0.palmPosition.x
  · simp [hx, hi, pairDist, pairDepthDiff, sortHandsByX]
  · simp [hx, hi, pairDist, pairDepthDiff, sortHandsByX]

/-- C2: the machine is in the Interacting state after a frame exactly
when that frame's hands are a double pinch (two hands, both pinch
distances below 0.4); the transition frame into Interacting only
snapshots the distance and depth baselines and flips the flag, leaving
scale and rotationY (and everything else) unchanged; and any frame
whose hands are not a double pinch resets the flag to false and changes
nothing else, so scale and rotationY stop updating. -/
theorem c2_state_transitions :
    ∀ (hyp : ℚ → ℚ → ℚ) (hands : List HandMetrics) (ts : TransformState),
      ((gestureStep hyp hands ts).isInteracting = isDoublePinch hands) ∧
      (isDoublePinch hands = true ↔
        ∃ h0 h1, hands = [h0, h1] ∧
          h0.pinchDistance < 2/5 ∧ h1.pinchDistance < 2/5) ∧
      (isDoublePinch hands = true → ts.isInteracting = false →
        gestureStep hyp hands ts =
          { ts with
            prevDist := pairDist hyp (sortHandsByX hands)
            prevDepthDiff := pairDepthDiff (sortHandsByX hands)
            isInteracting := true }) ∧
      (isDoublePinch hands = false →
        gestureStep hyp hands ts = { ts with isInteracting := false }) := by
  intro hyp hands ts
  refine ⟨?_, isDoublePinch_iff hands, ?_, gestureStep_no_pinch hyp hands ts⟩
  · by_cases hdp : isDoublePinch hands = true
    · obtain ⟨h0, h1, rfl, _, _⟩ := (isDoublePinch_iff hands).mp hdp
      rw [hdp]
      by_cases hi : ts.isInteracting = true
      · rw [gestureStep_interacting hyp h0 h1 ts hdp hi]
      · rw [gestureStep_transition hyp h0 h1 ts hdp (by simpa using hi)]
    · rw [gestureStep_no_pinch hyp hands ts (by simpa using hdp)]
      simp only [Bool.not_eq_true] at hdp
      rw [hdp]
  · intro hdp hni
    obtain ⟨h0, h1, rfl, _, _⟩ := (isDoublePinch_iff hands).mp hdp
    exact gestureStep_transition hyp h0 h1 ts hdp hni

/-- C2 witness: two hands with pinch distances 0.39 entering from Idle
(scale and rotation untouched on the transition frame), then one pinch
rising to 0.41 leaving Interacting. -/
theorem c2_state_transitions_witness :
    (gestureStep (fun _ _ => 0)
        [{ isOpen := false, pinchDistance := 39/100
           palmPosition := ⟨-3/10, 0, 0⟩, presence := true },
         { isOpen := false, pinchDistance := 39/100
           palmPosition := ⟨3/10, 0, 0⟩, presence := true }]
        initTransformState).isInteracting = true ∧
    (gestureStep (fun _ _ => 0)
        [{ isOpen := false, pinchDistance := 41/100
           palmPosition := ⟨-3/10, 0, 0⟩, presence := true },
         { isOpen := false, pinchDistance := 39/100
           palmPosition := ⟨3/10, 0, 0⟩, presence := true }]
        { initTransformState with isInteracting := true }).isInteracting
      = false := by
  constructor
  · rw [(c2_state_transitions (fun _ _ => 0) _ initTransformState).1]
    simp [isDoublePinch]
    norm_num
  · rw [(c2_state_transitions (fun _ _ => 0) _ _).1]
    simp [isDoublePinch]
    norm_num

/-- C3: on a frame where the machine is already Interacting, with the
hands given in ascending palm x (left first), the scale is incremented
by (planar palm distance - prevDist) times the sensitivity 2 and clamped
to [0.2, 3.0], rotationY is decremented by ((right z - left z) -
prevDepthDiff) times the sensitivity 1.5, and both baselines are updated
to this frame's values; in particular, when the planar distance grew
(hands moved farther apart), the depth difference is unchanged and the
scale is not already at the 3.0 cap, the scale strictly increases and
rotationY is unchanged. -/
theorem c3_interacting_update :
    ∀ (hyp : ℚ → ℚ → ℚ) (l r : HandMetrics) (ts : TransformState),
      l.palmPosition.x ≤ r.palmPosition.x →
      l.pinchDistance < 2/5 → r.pinchDistance < 2/5 →
      ts.isInteracting = true →
      ((gestureStep hyp [l, r] ts).scale =
          max (1/5) (min (ts.scale +
            (hyp (l.palmPosition.x - r.palmPosition.x)
              (l.palmPosition.y - r.palmPosition.y) - ts.prevDist) * 2) 3) ∧
        (gestureStep hyp [l, r] ts).rotationY =
          ts.rotationY - ((r.palmPosition.z - l.palmPosition.z) -
            ts.prevDepthDiff) * (3/2) ∧
        (gestureStep hyp [l, r] ts).prevDist =
          hyp (l.palmPosition.x - r.palmPosition.x)
            (l.palmPosition.y - r.palmPosition.y) ∧
        (gestureStep hyp [l, r] ts).prevDepthDiff =
          r.palmPosition.z - l.palmPosition.z) ∧
      (ts.prevDist < hyp (l.palmPosition.x - r.palmPosition.x)
          (l.palmPosition.y - r.palmPosition.y) →
        r.palmPosition.z - l.palmPosition.z = ts.prevDepthDiff →
        ts.scale < 3 →
        ts.scale < (gestureStep hyp [l, r] ts).scale ∧
        (gestureStep hyp [l, r] ts).rotationY = ts.rotationY) := by
  intro hyp l r ts hx hp0 hp1 hi
  have hdp : isDoublePinch [l, r] = true := by
    simp [isDoublePinch, hp0, hp1]
  have hsort : sortHandsByX [l, r] = [l, r] := by
    simp [sortHandsByX, not_lt.mpr hx]
  have hstep := gestureStep_interacting hyp l r ts hdp hi
  rw [hsort] at hstep
  simp only [pairDist, pairDepthDiff] at hstep
  rw [hstep]
  refine ⟨⟨rfl, rfl, rfl, rfl⟩, fun hgrow hdepth hcap => ⟨?_, ?_⟩⟩
  · dsimp only
    have hdelta : 0 < (hyp (l.palmPosition.x - r.palmPosition.x)
        (l.palmPosition.y - r.palmPosition.y) - ts.prevDist) * 2 := by
      linarith
    rcases le_or_lt (ts.scale + (hyp (l.palmPosition.x - r.palmPosition.x)
        (l.palmPosition.y - r.palmPosition.y) - ts.prevDist) * 2) 3 with h3 | h3
    · rw [min_eq_left h3]
      calc ts.scale < ts.scale + _ := by linarith
        _ ≤ max (1/5) _ := le_max_right _ _
    · rw [min_eq_right (le_of_lt h3)]
      calc ts.scale < 3 := hcap
        _ ≤ max (1/5) 3 := le_max_right _ _
  · dsimp only
    rw [hdepth]
    ring

/-- C3 witness: hands at x = -0.3 and x = 0.3, both pinch 0.1, machine
already interacting with a smaller stored distance and matching stored
depth baseline; using the hypotenuse oracle that returns the absolute
first argument (exact for these same-y hands), the scale strictly
increases and rotationY is unchanged. -/
theorem c3_interacting_update_witness :
    initTransformState.scale <
      (gestureStep (fun dx _ => |dx|)
        [{ isOpen := false, pinchDistance := 1/10
           palmPosition := ⟨-3/10, 0, 0⟩, presence := true },
         { isOpen := false, pinchDistance := 1/10
           palmPosition := ⟨3/10, 0, 0⟩, presence := true }]
        { initTransformState with isInteracting := true }).scale ∧
    (gestureStep (fun dx _ => |dx|)
        [{ isOpen := false, pinchDistance := 1/10
           palmPosition := ⟨-3/10, 0, 0⟩, presence := true },
         { isOpen := false, pinchDistance := 1/10
           palmPosition := ⟨3/10, 0, 0⟩, presence := true }]
        { initTransformState with isInteracting := true }).rotationY =
      { initTransformState with isInteracting := true }.rotationY := by
  have h := (c3_interacting_update (fun dx _ => |dx|)
    { isOpen := false, pinchDistance := 1/10
      palmPosition := ⟨-3/10, 0, 0⟩, presence := true }
    { isOpen := false, pinchDistance := 1/10
      palmPosition := ⟨3/10, 0, 0⟩, presence := true }
    { initTransformState with isInteracting := true }
    (by norm_num) (by norm_num) (by norm_num) rfl).2
    (by norm_num [initTransformState])
    (by norm_num [initTransformState]) (by norm_num [initTransformState])
  exact h

/-- Single-step preservation of the scale clamp. -/
theorem gestureStep_scale_bounds (hyp : ℚ → ℚ → ℚ)
    (hands : List HandMetrics) (ts : TransformState)
    (h : 1/5 ≤ ts.scale ∧ ts.scale ≤ 3) :
    1/5 ≤ (gestureStep hyp hands ts).scale ∧
      (gestureStep hyp hands ts).scale ≤ 3 := by
  by_cases hdp : isDoublePinch hands = true
  · obtain ⟨h0, h1, rfl, _, _⟩ := (isDoublePinch_iff hands).mp hdp
    by_cases hi : ts.isInteracting = true
    · rw [gestureStep_interacting hyp h0 h1 ts hdp hi]
      constructor
      · exact le_max_left _ _
      · exact max_le (by norm_num) (min_le_right _ _)
    · rw [gestureStep_transition hyp h0 h1 ts hdp (by simpa using hi)]
      exact h
  · rw [gestureStep_no_pinch hyp hands ts (by simpa using hdp)]
    exact h

/-- C4: scale is an invariant of the state machine; starting from the
initial value 1.0 and for every sequence of frames with arbitrary hand
inputs (and any behavior of the hypotenuse, hence arbitrarily large
distance deltas), the scale is inside [0.2, 3.0] after every frame. -/
theorem c4_scale_invariant :
    ∀ (hyp : ℚ → ℚ → ℚ) (frames : List (List HandMetrics)),
      1/5 ≤ (runGesture hyp frames).scale ∧
        (runGesture hyp frames).scale ≤ 3 := by
  intro hyp frames
  have hgen : ∀ (ts : TransformState), 1/5 ≤ ts.scale ∧ ts.scale ≤ 3 →
      1/5 ≤ (frames.foldl (fun ts hands => gestureStep hyp hands ts) ts).scale ∧
      (frames.foldl (fun ts hands => gestureStep hyp hands ts) ts).scale ≤ 3 := by
    induction frames with
    | nil => intro ts h; simpa using h
    | cons hands frames ih =>
      intro ts h
      exact ih (gestureStep hyp hands ts) (gestureStep_scale_bounds hyp hands ts h)
  exact hgen initTransformState (by norm_num [initTransformState])

/-- C10: when the two detected hands report exactly equal palm x, the
sort of ParticleScene.tsx line 75 (a stable ECMAScript sort whose
comparator returns 0 on the tie) preserves detector order, so the hand
emitted first is the left hand; consequently the frame's observable
depth difference and rotation update use the first hand as left.  The
whole embedded update is a pure function of the hand list and prior
state, so two runs on equal inputs are definitionally equal. -/
theorem c10_tie_break_stable :
    ∀ (a b : HandMetrics), a.palmPosition.x = b.palmPosition.x →
      sortHandsByX [a, b] = [a, b] ∧
      (∀ (hyp : ℚ → ℚ → ℚ) (ts : TransformState),
        isDoublePinch [a, b] = true → ts.isInteracting = true →
        (gestureStep hyp [a, b] ts).prevDepthDiff =
          b.palmPosition.z - a.palmPosition.z ∧
        (gestureStep hyp [a, b] ts).rotationY =
          ts.rotationY - ((b.palmPosition.z - a.palmPosition.z) -
            ts.prevDepthDiff) * (3/2)) := by
  intro a b hx
  have hsort : sortHandsByX [a, b] = [a, b] := by
    simp [sortHandsByX, hx, lt_irrefl]
  refine ⟨hsort, fun hyp ts hdp hi => ?_⟩
  have hstep := gestureStep_interacting hyp a b ts hdp hi
  rw [hsort] at hstep
  simp only [pairDist, pairDepthDiff] at hstep
  rw [hstep]
  exact ⟨rfl, rfl⟩

/-- C10 witness: two hands at identical palm x = 0.1 with distinct
depths, machine interacting. -/
theorem c10_tie_break_stable_witness :
    sortHandsByX
        [{ isOpen := false, pinchDistance := 1/10
           palmPosition := ⟨1/10, 0, 2⟩, presence := true },
         { isOpen := false, pinchDistance := 1/10
           palmPosition := ⟨1/10, 1, 5⟩, presence := true }] =
      [{ isOpen := false, pinchDistance := 1/10
         palmPosition := ⟨1/10, 0, 2⟩, presence := true },
       { isOpen := false, pinchDistance := 1/10
         palmPosition := ⟨1/10, 1, 5⟩, presence := true }] ∧
    (gestureStep (fun _ _ => 0)
        [{ isOpen := false, pinchDistance := 1/10
           palmPosition := ⟨1/10, 0, 2⟩, presence := true },
         { isOpen := false, pinchDistance := 1/10
           palmPosition := ⟨1/10, 1, 5⟩, presence := true }]
        { initTransformState with isInteracting := true }).prevDepthDiff
      = 3 := by
  have h := c10_tie_break_stable
    { isOpen := false, pinchDistance := 1/10
      palmPosition := ⟨1/10, 0, 2⟩, presence := true }
    { isOpen := false, pinchDistance := 1/10
      palmPosition := ⟨1/10, 1, 5⟩, presence := true } rfl
  refine ⟨h.1, ?_⟩
  have h2 := (h.2 (fun _ _ => 0)
    { initTransformState with isInteracting := true }
    (by simp [isDoublePinch]; norm_num) rfl).1
  rw [h2]
  norm_num

/-! ## Pinch normalization (WebcamHandler.tsx, lines 185-202)

The source computes

  const relativePinch = rawPinchDist / handScale;
  const normalizedPinch = Math.min(Math.max((relativePinch - 0.2) / 0.8, 0), 1);

with no guard on `handScale`.  Both `rawPinchDist` and `handScale` are
`Math.hypot` results, hence finite and nonnegative, but `handScale` can
be exactly 0 (wrist and middle-finger base reported at the same image
x,y).  To settle whether the output can be NaN or infinite, JS numbers
are embedded as exact rationals extended with the IEEE-754 special
values used by the relevant operations. -/

/-- A JS number: a finite value (idealized as an exact rational),
positive or negative infinity, or NaN. -/
inductive JsNum where
  | fin (q : ℚ)
  | inf
  | ninf
  | nan
  deriving Repr, DecidableEq

/-- JS division, on the cases reachable here: finite / finite follows
IEEE-754 (x/0 is NaN for x = 0 and a signed infinity otherwise),
infinities divided by a finite keep their sign (flipped by a negative
divisor), infinity / infinity is NaN, and NaN propagates. -/
def jsDiv : JsNum → JsNum → JsNum
  | JsNum.nan, _ => JsNum.nan
  | _, JsNum.nan => JsNum.nan
  | JsNum.fin a, JsNum.fin b =>
    if b = 0 then
      if a = 0 then JsNum.nan
      else if 0 < a then JsNum.inf else JsNum.ninf
    else JsNum.fin (a / b)
  | JsNum.inf, JsNum.fin b => if b < 0 then JsNum.ninf else JsNum.inf
  | JsNum.ninf, JsNum.fin b => if b < 0 then JsNum.inf else JsNum.ninf
  | JsNum.fin _, JsNum.inf => JsNum.fin 0
  | JsNum.fin _, JsNum.ninf => JsNum.fin 0
  | _, JsNum.inf => JsNum.nan
  | _, JsNum.ninf => JsNum.nan

/-- JS subtraction on the extended values; NaN propagates and opposing
infinities cancel to NaN. -/
def jsSub : JsNum → JsNum → JsNum
  | JsNum.nan, _ => JsNum.nan
  | _, JsNum.nan => JsNum.nan
  | JsNum.fin a, JsNum.fin b => JsNum.fin (a - b)
  | JsNum.inf, JsNum.fin _ => JsNum.inf
  | JsNum.ninf, JsNum.fin _ => JsNum.ninf
  | JsNum.fin _, JsNum.inf => JsNum.ninf
  | JsNum.fin _, JsNum.ninf => JsNum.inf
  | JsNum.inf, JsNum.inf => JsNum.nan
  | JsNum.inf, JsNum.ninf => JsNum.inf
  | JsNum.ninf, JsNum.inf => JsNum.ninf
  | JsNum.ninf, JsNum.ninf => JsNum.nan

/-- `Math.max`: NaN if either argument is NaN. -/
def jsMax : JsNum → JsNum → JsNum
  | JsNum.nan, _ => JsNum.nan
  | _, JsNum.nan => JsNum.nan
  | JsNum.inf, _ => JsNum.inf
  | _, JsNum.inf => JsNum.inf
  | JsNum.ninf, x => x
  | x, JsNum.ninf => x
  | JsNum.fin a, JsNum.fin b => JsNum.fin (max a b)

/-- `Math.min`: NaN if either argument is NaN. -/
def jsMin : JsNum → JsNum → JsNum
  | JsNum.nan, _ => JsNum.nan
  | _, JsNum.nan => JsNum.nan
  | JsNum.ninf, _ => JsNum.ninf
  | _, JsNum.ninf => JsNum.ninf
  | JsNum.inf, x => x
  | x, JsNum.inf => x
  | JsNum.fin a, JsNum.fin b => JsNum.fin (min a b)

/-- The pinch normalization of WebcamHandler.tsx lines 201-202, applied
to the finite nonnegative hypotenuse results `raw` (thumb-to-index
distance) and `scale` (wrist-to-middle-base hand scale). -/
def normalizedPinch (raw scale : ℚ) : JsNum :=
  let relativePinch := jsDiv (JsNum.fin raw) (JsNum.fin scale)
  jsMin (jsMax (jsDiv (jsSub relativePinch (JsNum.fin (1/5)))
    (JsNum.fin (4/5))) (JsNum.fin 0)) (JsNum.fin 1)

/-- C5 counterexample: the division is not guarded.  When the detector
reports the wrist at the same image x,y as the middle-finger base
(handScale = 0) and the thumb tip at the index tip (raw pinch 0), the
computed pinch is NaN -- not a finite number in [0, 1]. -/
theorem c5_unguarded_division_cex : normalizedPinch 0 0 = JsNum.nan := by
  simp [normalizedPinch, jsDiv, jsSub, jsMax, jsMin]

/-- C5 amended: for every positive handScale the clamp keeps the output
a finite number in [0, 1] whatever the raw pinch magnitude; but there is
no epsilon guard for handScale = 0: a positive raw pinch then degrades
to the clamp boundary 1 (the intermediate Infinity is absorbed by
Math.min), while a zero raw pinch produces NaN. -/
theorem c5_pinch_range_amended :
    (∀ raw scale : ℚ, 0 < scale →
      ∃ q : ℚ, normalizedPinch raw scale = JsNum.fin q ∧ 0 ≤ q ∧ q ≤ 1) ∧
    (∀ raw : ℚ, 0 < raw → normalizedPinch raw 0 = JsNum.fin 1) ∧
    normalizedPinch 0 0 = JsNum.nan := by
  refine ⟨fun raw scale hs => ?_, fun raw hr => ?_, ?_⟩
  · refine ⟨min (max ((raw / scale - 1/5) / (4/5)) 0) 1, ?_, ?_, ?_⟩
    · simp [normalizedPinch, jsDiv, jsSub, jsMax, jsMin, ne_of_gt hs]
    · simp only [le_min_iff]
      exact ⟨le_max_right _ _, by norm_num⟩
    · exact min_le_right _ _
  · have h45 : ¬ (4/5 : ℚ) < 0 := by norm_num
    simp [normalizedPinch, jsDiv, jsSub, jsMax, jsMin, hr, ne_of_gt hr, h45]
  · simp [normalizedPinch, jsDiv, jsSub, jsMax, jsMin]

/-- C5 witness for the amended claim at handScale 1/10 and a huge raw
pinch 1000, and at handScale 0 with raw pinch 1/100. -/
theorem c5_pinch_range_amended_witness :
    (∃ q : ℚ, normalizedPinch 1000 (1/10) = JsNum.fin q ∧ 0 ≤ q ∧ q ≤ 1) ∧
    normalizedPinch (1/100) 0 = JsNum.fin 1 :=
  ⟨c5_pinch_range_amended.1 1000 (1/10) (by norm_num),
   c5_pinch_range_amended.2.1 (1/100) (by norm_num)⟩

/-! ## Particle buffers across a shape change (ParticleScene.tsx, lines 53-55)

  const targetPositions = useMemo(() => generateShapePositions(shapeType, PARTICLE_COUNT), [shapeType]);
  const currentPositions = useMemo(() => new Float32Array(targetPositions), [targetPositions]);
  const velocities = useMemo(() => new Float32Array(PARTICLE_COUNT * 3), [targetPositions]);

`generateShapePositions` returns a fresh array on every call, so when
the `shapeType` prop changes, the first memo recomputes, its result is a
new reference, and therefore the second and third memos also recompute:
`currentPositions` becomes a copy of the new targets and `velocities`
a fresh zero array.  When the prop does not change, all three memo
values are retained.  The freshly generated cloud is passed in
explicitly (`newTargets`) since generation is random. -/

/-- The `ShapeType` enumeration of types.ts. -/
inductive ShapeType where
  | heart
  | flower
  | saturn
  | fireworks
  | sphere
  deriving Repr, DecidableEq

/-- The three buffers of ParticleScene.tsx lines 53-55, flat arrays of
per-coordinate values like the Float32Arrays they model. -/
structure SceneBuffers where
  targetPositions : List ℚ
  currentPositions : List ℚ
  velocities : List ℚ
  deriving Repr, DecidableEq

/-- Fresh buffers for a target cloud: `currentPositions` is a copy of
the targets (`new Float32Array(targetPositions)`) and `velocities` a
zero array of the same length. -/
def initBuffers (targets : List ℚ) : SceneBuffers :=
  { targetPositions := targets
    currentPositions := targets
    velocities := List.replicate targets.length 0 }

/-- The buffers after a render in which the `shapeType` prop moved from
`prevShape` to `newShape`, per the `useMemo` dependency lists of lines
53-55; `newTargets` is the cloud `generateShapePositions` produced for
`newShape` when it ran. -/
def buffersAfterRender (prev : SceneBuffers) (prevShape newShape : ShapeType)
    (newTargets : List ℚ) : SceneBuffers :=
  if newShape = prevShape then prev else initBuffers newTargets

/-- C6 counterexample: a shape change does not retain the position and
velocity buffers.  With particles displaced to positions [7, 8, 9] and
moving with velocities [1, 1, 1] under the Heart cloud, switching to
the Sphere cloud [0, 0, 6] resets the positions to the new targets and
the velocities to zero: both buffers differ from their prior values and
the particles snap instead of migrating. -/
theorem c6_buffers_reset_cex :
    (buffersAfterRender
        { targetPositions := [0, 0, 0]
          currentPositions := [7, 8, 9]
          velocities := [1, 1, 1] }
        ShapeType.heart ShapeType.sphere [0, 0, 6]).currentPositions ≠
      [7, 8, 9] ∧
    (buffersAfterRender
        { targetPositions := [0, 0, 0]
          currentPositions := [7, 8, 9]
          velocities := [1, 1, 1] }
        ShapeType.heart ShapeType.sphere [0, 0, 6]).velocities ≠
      [1, 1, 1] ∧
    buffersAfterRender
        { targetPositions := [0, 0, 0]
          currentPositions := [7, 8, 9]
          velocities := [1, 1, 1] }
        ShapeType.heart ShapeType.sphere [0, 0, 6] =
      { targetPositions := [0, 0, 6]
        currentPositions := [0, 0, 6]
        velocities := [0, 0, 0] } := by
  have hne : ShapeType.sphere ≠ ShapeType.heart := by decide
  refine ⟨?_, ?_, ?_⟩ <;>
    simp [buffersAfterRender, initBuffers, hne, List.replicate]

/-- C6 amended: when the `ShapeType` prop is unchanged all three buffers
are retained; when it changes, all three are replaced -- the target
cloud by the newly generated one, the position buffer by a copy of the
new targets (particles snap to the new shape), and the velocity buffer
by zeros. -/
theorem c6_buffers_amended :
    ∀ (prev : SceneBuffers) (prevShape newShape : ShapeType)
      (newTargets : List ℚ),
      (newShape = prevShape →
        buffersAfterRender prev prevShape newShape newTargets = prev) ∧
      (newShape ≠ prevShape →
        (buffersAfterRender prev prevShape newShape newTargets).targetPositions
            = newTargets ∧
        (buffersAfterRender prev prevShape newShape newTargets).currentPositions
            = newTargets ∧
        (buffersAfterRender prev prevShape newShape newTargets).velocities
            = List.replicate newTargets.length 0) := by
  intro prev prevShape newShape newTargets
  constructor
  · intro h
    simp [buffersAfterRender, h]
  · intro h
    simp [buffersAfterRender, h, initBuffers]

/-- C6 amended-claim witness at a concrete unchanged and changed pair. -/
theorem c6_buffers_amended_witness :
    buffersAfterRender (initBuffers [1, 2, 3]) ShapeType.heart
        ShapeType.heart [4, 5, 6] = initBuffers [1, 2, 3] ∧
    (buffersAfterRender (initBuffers [1, 2, 3]) ShapeType.heart
        ShapeType.flower [4, 5, 6]).currentPositions = [4, 5, 6] :=
  ⟨(c6_buffers_amended (initBuffers [1, 2, 3]) ShapeType.heart
      ShapeType.heart [4, 5, 6]).1 rfl,
   ((c6_buffers_amended (initBuffers [1, 2, 3]) ShapeType.heart
      ShapeType.flower [4, 5, 6]).2 (by decide)).2.1⟩

/-! ## Saturn population split (shapes.ts, Saturn branch)

  const isRing = Math.random() > 0.4;
  if (isRing) { ... ring ... } else { ... planet body ... }
-/

/-- The Saturn branch selector of shapes.ts: the draw `u` (a
`Math.random()` result, uniform on `[0,1)`) sends the point to the ring
population when `u > 0.4` and to the planet body otherwise. -/
def saturnIsRing (u : ℚ) : Bool := decide ((2/5 : ℚ) < u)

/-- C8 counterexample: over the uniform draw the body branch covers
exactly the subinterval [0, 2/5] of the unit draw range -- fraction
0.4, not approximately 0.6; in particular the median draw 1/2 takes the
ring branch, and 2/5 is not within 0.1 of 3/5. -/
theorem c8_saturn_split_cex :
    { u : ℚ | 0 ≤ u ∧ u < 1 ∧ saturnIsRing u = false } =
      Set.Icc (0 : ℚ) (2/5) ∧
    saturnIsRing (1/2) = true ∧
    ¬ |(2/5 : ℚ) - 3/5| < 1/10 := by
  have habs : |(2/5 : ℚ) - 3/5| = 1/5 := by
    have h : ((2:ℚ)/5 - 3/5) = -(1/5) := by norm_num
    rw [h, abs_neg, abs_of_nonneg]
    norm_num
  refine ⟨?_, ?_, by rw [habs]; norm_num⟩
  · ext u
    simp only [Set.mem_setOf_eq, Set.mem_Icc, saturnIsRing,
      decide_eq_false_iff_not, not_lt]
    constructor
    · rintro ⟨h0, _, h2⟩
      exact ⟨h0, h2⟩
    · rintro ⟨h0, h2⟩
      exact ⟨h0, lt_of_le_of_lt h2 (by norm_num), h2⟩
  · simp only [saturnIsRing, decide_eq_true_eq]
    norm_num

/-- C8 amended: the split is approximately 40% body / 60% ring: a draw
in the unit range takes the body branch exactly when it is at most 2/5,
so the body fraction is 2/5 and the ring fraction 3/5. -/
theorem c8_saturn_split_amended :
    ∀ u : ℚ, 0 ≤ u → u < 1 →
      (saturnIsRing u = false ↔ u ≤ 2/5) := by
  intro u _ _
  simp only [saturnIsRing, decide_eq_false_iff_not, not_lt]

/-- C8 amended-claim witness at the draws 1/5 (body) and 1/2 (ring). -/
theorem c8_saturn_split_amended_witness :
    (saturnIsRing (1/5) = false ↔ (1/5 : ℚ) ≤ 2/5) ∧
    (saturnIsRing (1/2) = false ↔ (1/2 : ℚ) ≤ 2/5) :=
  ⟨c8_saturn_split_amended (1/5) (by norm_num) (by norm_num),
   c8_saturn_split_amended (1/2) (by norm_num) (by norm_num)⟩

/-! ## Fireworks and Sphere generators (shapes.ts)

  case ShapeType.FIREWORKS: r = 15 * Math.cbrt(Math.random()); ...
  case ShapeType.SPHERE:    r = 10 * Math.cbrt(Math.random()); ...

Both branches draw `(u, a, c)` (radius, azimuth and polar draws) and
produce `r * (sin φ cos θ, sin φ sin θ, cos φ)` with
`θ = a·π·2` and `φ = arccos(2c − 1)`; they differ in the radius
constant, 15 versus 10.  Real-valued embedding (`Math.cbrt` on the
nonnegative draws is the real power `u ^ (1/3)`); noncomputable because
of the transcendental functions, as in the source. -/

/-- One generated point of the Fireworks branch of shapes.ts, as a
function of that point's three uniform draws. -/
noncomputable def fireworksPoint (u a c : ℝ) : ℝ × ℝ × ℝ :=
  let r := 15 * u ^ ((1 : ℝ)/3)
  let θ := a * Real.pi * 2
  let φ := Real.arccos (2 * c - 1)
  (r * Real.sin φ * Real.cos θ, r * Real.sin φ * Real.sin θ, r * Real.cos φ)

/-- One generated point of the Sphere (default) branch of shapes.ts. -/
noncomputable def spherePoint (u a c : ℝ) : ℝ × ℝ × ℝ :=
  let r := 10 * u ^ ((1 : ℝ)/3)
  let θ := a * Real.pi * 2
  let φ := Real.arccos (2 * c - 1)
  (r * Real.sin φ * Real.cos θ, r * Real.sin φ * Real.sin θ, r * Real.cos φ)

/-- The Fireworks point array for a stream of per-point draws. -/
noncomputable def fireworksArray (draws : List (ℝ × ℝ × ℝ)) :
    List (ℝ × ℝ × ℝ) :=
  draws.map (fun d => fireworksPoint d.1 d.2.1 d.2.2)

/-- The Sphere point array for a stream of per-point draws. -/
noncomputable def sphereArray (draws : List (ℝ × ℝ × ℝ)) :
    List (ℝ × ℝ × ℝ) :=
  draws.map (fun d => spherePoint d.1 d.2.1 d.2.2)

/-- C9 counterexample: with count 1 and the draw stream [(1/8, 0, 1/2)]
(radius draw 1/8, azimuth draw 0, polar draw 1/2, all inside the
Math.random range) the two generators disagree -- the Fireworks point
sits at radius 15·cbrt(1/8) on the equator while the Sphere point sits
at 10·cbrt(1/8), so the returned arrays are not equal. -/
theorem c9_geometry_differs_cex :
    fireworksArray [(1/8, 0, 1/2)] ≠ sphereArray [(1/8, 0, 1/2)] := by
  have hc : (0 : ℝ) < (1/8 : ℝ) ^ ((1 : ℝ)/3) :=
    Real.rpow_pos_of_pos (by norm_num) _
  have hphi : Real.arccos (2 * (1/2) - 1) = Real.pi / 2 := by
    rw [show (2 : ℝ) * (1/2) - 1 = 0 by norm_num, Real.arccos_zero]
  have hx : (fireworksPoint (1/8) 0 (1/2)).1 ≠ (spherePoint (1/8) 0 (1/2)).1 := by
    simp only [fireworksPoint, spherePoint]
    rw [hphi, Real.sin_pi_div_two,
      show (0 : ℝ) * Real.pi * 2 = 0 by ring, Real.cos_zero]
    intro h
    nlinarith [hc]
  intro h
  simp only [fireworksArray, sphereArray, List.map, List.cons.injEq,
    and_true] at h
  exact hx (congrArg (fun p => p.1) h)

/-- C9 amended: the two generators share the whole construction except
the radius constant (15 versus 10): for every draw stream the Fireworks
array is the pointwise 3/2-dilation of the Sphere array, so the shapes
agree up to uniform scale, not pointwise. -/
theorem c9_geometry_scaled_amended :
    ∀ draws : List (ℝ × ℝ × ℝ),
      fireworksArray draws =
        (sphereArray draws).map
          (fun p => (3/2 * p.1, 3/2 * p.2.1, 3/2 * p.2.2)) := by
  intro draws
  simp only [fireworksArray, sphereArray, List.map_map]
  apply List.map_congr_left
  intro d _
  simp only [Function.comp_apply, fireworksPoint, spherePoint]
  refine Prod.ext ?_ (Prod.ext ?_ ?_) <;> dsimp only <;> ring

end HandParticles
